import Mathlib

set_option linter.unusedVariables false

/-!
Shallow embedding of `src/app.py` (a single-file Streamlit chat front-end).

The program keeps one in-memory session: the selected persona (`character`)
and the retained message history.  Each user submission appends a user
message, sends a windowed copy of the history (prefixed with a persona
system prompt) to the remote completion call, accumulates the streamed
fragments, and appends an assistant message.  The embedding below models
the session state and every state-changing operation of the script, plus
the startup configuration gate and the export serialization.
-/

/-- A chat message as stored in `st.session_state.messages`: a dict with
string fields `role` and `content` (src/app.py lines 95, 112, 125). -/
structure Message where
  role : String
  content : String
deriving DecidableEq, Repr

/-- The `delta` object of a streamed chunk: its `content` attribute is a
string or absent/None (src/app.py line 117–118). -/
structure Delta where
  content : Option String
deriving DecidableEq, Repr

/-- One streamed chunk.  `delta` models `chunk.choices[0].delta`, which the
loop body reads at line 117; it can be None (falsy). -/
structure Chunk where
  delta : Option Delta
deriving DecidableEq, Repr

/-- The text a chunk contributes, per the guard
`if delta and getattr(delta, "content", None)` at src/app.py line 118:
nothing when the delta is None, its content is absent, or its content is
the empty string (all falsy in Python); otherwise the content itself. -/
def chunkText (c : Chunk) : Option String :=
  match c.delta with
  | none => none
  | some d =>
    match d.content with
    | none => none
    | some s => if s = "" then none else some s

/-- The accumulator loop of src/app.py lines 116–120: starting from
`full_text = ""`, each chunk with text appends its text. -/
def accumulate (chunks : List Chunk) : String :=
  chunks.foldl
    (fun acc c =>
      match chunkText c with
      | some s => acc ++ s
      | none => acc)
    ""

/-- Instruction text of the persona `친근한_멘토` (src/app.py lines 39–41). -/
def mentorPrompt : String :=
  "당신은 친근하고 따뜻한 개발 멘토입니다.\n짧고 실용하며, 복잡한 용어는 풀어서 설명하고,\n필요하면 한 줄 예시 코드를 먼저 제시하세요."

/-- Instruction text of the persona `90년대_감성` (src/app.py lines 42–44). -/
def retroPrompt : String :=
  "당신은 90년대 감성의 재치 있는 친구입니다.\n밝고 유쾌하지만 정보는 정확하게,\n문장 끝에 가벼운 추임새를 한 번씩 첨가하세요(과하지 않게)."

/-- Instruction text of the persona `차분한_사서` (src/app.py lines 45–47). -/
def librarianPrompt : String :=
  "당신은 차분하고 신뢰감 있는 사서입니다.\n정보의 출처/근거를 간략히 덧붙이고,\n항상 요약 → 핵심 목록 → 다음 행동을 제안하세요."

/-- The static persona table `character_prompts` (src/app.py lines 38–48),
as an ordered association list. -/
def character_prompts : List (String × String) :=
  [("친근한_멘토", mentorPrompt),
   ("90년대_감성", retroPrompt),
   ("차분한_사서", librarianPrompt)]

/-- Dictionary lookup `character_prompts[key]` (src/app.py line 106);
`none` models the KeyError case of an unknown key. -/
def promptFor (key : String) : Option String :=
  (character_prompts.find? (fun p => p.1 == key)).map (fun p => p.2)

/-- The context-window size `N = 20` (src/app.py line 104). -/
def N : Nat := 20

/-- Python slice `l[-n:]`: the `n` most recent entries (all of them when
the list is shorter), as used at src/app.py line 105. -/
def lastN (n : Nat) (l : List α) : List α :=
  l.drop (l.length - n)

/-- The `messages` argument of the completion call (src/app.py line 112):
one synthesized system entry holding the persona instruction, followed by
the windowed history `messages[-N:]`. -/
def sentMessages (systemPrompt : String) (messages : List Message) : List Message :=
  { role := "system", content := systemPrompt } :: lastN N messages

/-- The session state kept in `st.session_state`: selected persona name
and retained history (src/app.py lines 77–85). -/
structure SessionState where
  character : String
  messages : List Message
deriving DecidableEq, Repr

/-- The message list handed to `client.chat.completions.create` on a
submission in state `st`: the slice at line 105 is taken after the user
message was appended at line 95, then the system entry is prepended
(line 112).  `none` when the persona lookup at line 106 would raise. -/
def sentForTurn (st : SessionState) (prompt : String) : Option (List Message) :=
  (promptFor st.character).map
    (fun sp => sentMessages sp (st.messages ++ [{ role := "user", content := prompt }]))

/-- One user submission (src/app.py lines 94–125).  `delivered` is the list
of chunks the stream yielded before it was exhausted or raised; `err` is
`some e` when the call raised at any point with rendered text `e`
(`f"오류: {kind} — {msg}"` keeps only the except branch at lines 122–123),
`none` on success.  The user append at line 95 runs first; the assistant
append at line 125 sits outside the `try`, so it runs in both cases with the
accumulated `full_text`.  Returns the new state and the final content of the
transient placeholder (accumulated text on success, the error rendering on
failure). -/
def submitTurn (st : SessionState) (prompt : String)
    (delivered : List Chunk) (err : Option String) : SessionState × String :=
  let afterUser := st.messages ++ [{ role := "user", content := prompt }]
  let full_text := accumulate delivered
  let display :=
    match err with
    | none => full_text
    | some e => "오류: " ++ e
  ({ st with messages := afterUser ++ [{ role := "assistant", content := full_text }] }, display)

/-- The persona-change reset (src/app.py lines 83–85): when the selectbox
value differs from the stored persona, adopt it and clear the history;
otherwise the state is untouched. -/
def personaSwitch (st : SessionState) (selected : String) : SessionState :=
  if st.character ≠ selected then { character := selected, messages := [] } else st

/-- The explicit reset button (src/app.py lines 72–74): `st.session_state`
is cleared and the script reruns, so the state is rebuilt fresh at lines
77–80 with an empty history and the current selectbox value as persona. -/
def resetSession (selected : String) : SessionState :=
  { character := selected, messages := [] }

/-- The per-message export formatting
of each entry: the f-string at src/app.py line 139 rendering the role
between double asterisks, a colon, and the content. -/
def fmtMessage (m : Message) : String :=
  "**" ++ m.role ++ "**: " ++ m.content

/-- The export payload `"\n\n".join(...)` over the full retained history
(src/app.py lines 138–140). -/
def exportText (messages : List Message) : String :=
  String.intercalate "\n\n" (messages.map fmtMessage)

/-- The export control (src/app.py lines 135–144): offered only when the
retained history is non-empty (`if st.session_state.messages:`); it reads
the state and produces the payload without modifying anything.  Returns
the unchanged state and the offered payload, `none` when not offered. -/
def exportStep (st : SessionState) : SessionState × Option String :=
  if st.messages.isEmpty then (st, none)
  else (st, some (exportText st.messages))

/-- Startup outcome: either the script halts at `st.stop()` after showing
an error, or it proceeds to build the page and session. -/
inductive StartupResult where
  | halt (errMsg : String)
  | proceed
deriving DecidableEq, Repr

/-- The error text shown when the API key is missing (src/app.py lines 27–31). -/
def apiKeyErrorMsg : String :=
  "OPENAI_API_KEY가 없어요.\n프로젝트 루트에 .env 파일을 만들고 아래처럼 적어주세요:\nOPENAI_API_KEY=sk-..."

/-- The configuration gate at src/app.py lines 24–32: after `load_dotenv()`,
`if not os.getenv("OPENAI_API_KEY")` shows one error and calls `st.stop()`,
which halts the script before any session state is touched; a set, non-empty
key lets startup proceed.  `env` is the process environment after
`load_dotenv` (`os.getenv` yields `none` for an unset variable; the empty
string is falsy in Python, hence also halts). -/
def startup (env : String → Option String) : StartupResult :=
  match env "OPENAI_API_KEY" with
  | none => .halt apiKeyErrorMsg
  | some v => if v = "" then .halt apiKeyErrorMsg else .proceed

/-- A run of consecutive submissions: each turn is (prompt, delivered
chunks, error-or-none), folded through `submitTurn` with no persona switch
or reset in between. -/
def runTurns (st : SessionState)
    (turns : List (String × List Chunk × Option String)) : SessionState :=
  turns.foldl (fun s t => (submitTurn s t.1 t.2.1 t.2.2).1) st

/-- Tags every turn of a run as successful (error component `none`). -/
def successTurns (ts : List (String × List Chunk)) :
    List (String × List Chunk × Option String) :=
  ts.map (fun t => (t.1, t.2, none))

/-- The two messages a single turn appends. -/
def turnMessages : List (String × List Chunk × Option String) → List Message
  | [] => []
  | t :: ts =>
    { role := "user", content := t.1 } ::
      { role := "assistant", content := accumulate t.2.1 } :: turnMessages ts

/-- Plain concatenation of a list of strings, used to state what the
accumulator computes. -/
def concatTexts : List String → String
  | [] => ""
  | s :: rest => s ++ concatTexts rest

/-- The retained history holds no system-role entry. -/
abbrev noSystem (l : List Message) : Prop := ∀ m ∈ l, m.role ≠ "system"

/-- Rendering of the export described by the spec: one formatted entry per
retained message, consecutive entries separated by a blank line, in
original order.  Modelled from the spec for comparison with `exportText`. -/
def exportSpecText : List Message → String
  | [] => ""
  | [m] => fmtMessage m
  | m :: n :: rest => fmtMessage m ++ "\n\n" ++ exportSpecText (n :: rest)

/-- Separator-prefixed concatenation, the shape of `String.intercalate.go`
applied to the remaining entries. -/
def sepConcat : List String → String
  | [] => ""
  | a :: as => "\n\n" ++ a ++ sepConcat as

/-- A concrete one-entry history used to exercise the theorems. -/
def sampleHistory : List Message :=
  [{ role := "user", content := "a" }]

/-- A concrete two-entry history used to exercise the theorems. -/
def sampleHistory2 : List Message :=
  [{ role := "user", content := "hi" }, { role := "assistant", content := "ok" }]

/-- A concrete session with the mentor persona and a one-entry history. -/
def sampleState : SessionState :=
  { character := "친근한_멘토", messages := sampleHistory }

/-- A concrete session with the mentor persona and an empty history. -/
def emptyState : SessionState :=
  { character := "친근한_멘토", messages := [] }

/-- A concrete session with the mentor persona and a two-entry history. -/
def sampleState2 : SessionState :=
  { character := "친근한_멘토", messages := sampleHistory2 }

/-! ## Helper lemmas -/

theorem submitTurn_messages (st : SessionState) (p : String)
    (d : List Chunk) (e : Option String) :
    (submitTurn st p d e).1.messages
      = st.messages ++ [{ role := "user", content := p },
                        { role := "assistant", content := accumulate d }] := by
  show (st.messages ++ [{ role := "user", content := p }])
        ++ [{ role := "assistant", content := accumulate d }] = _
  simp

theorem submitTurn_character (st : SessionState) (p : String)
    (d : List Chunk) (e : Option String) :
    (submitTurn st p d e).1.character = st.character := rfl

theorem accumulate_from (acc : String) (l : List Chunk) :
    l.foldl
      (fun a c =>
        match chunkText c with
        | some s => a ++ s
        | none => a)
      acc
      = acc ++ concatTexts (l.filterMap chunkText) := by
  induction l generalizing acc with
  | nil => simp [concatTexts]
  | cons c l ih =>
    cases hc : chunkText c with
    | none => simp [List.foldl, hc, List.filterMap_cons, ih]
    | some s =>
      simp [List.foldl, hc, List.filterMap_cons, ih, concatTexts, String.append_assoc]

theorem accumulate_eq (l : List Chunk) :
    accumulate l = concatTexts (l.filterMap chunkText) := by
  have h := accumulate_from "" l
  simpa [accumulate] using h

theorem runTurns_messages (ts : List (String × List Chunk × Option String)) :
    ∀ st : SessionState, (runTurns st ts).messages = st.messages ++ turnMessages ts := by
  induction ts with
  | nil => intro st; simp [runTurns, turnMessages]
  | cons t ts ih =>
    intro st
    have hstep : runTurns st (t :: ts) = runTurns (submitTurn st t.1 t.2.1 t.2.2).1 ts := rfl
    rw [hstep, ih, submitTurn_messages]
    simp [turnMessages]

theorem turnMessages_length (ts : List (String × List Chunk × Option String)) :
    (turnMessages ts).length = 2 * ts.length := by
  induction ts with
  | nil => simp [turnMessages]
  | cons t ts ih => simp [turnMessages, ih]; omega

theorem turnMessages_roles (ts : List (String × List Chunk × Option String)) :
    ∀ i, i < (turnMessages ts).length →
      ((turnMessages ts).get? i).map Message.role
        = some (if i % 2 = 0 then "user" else "assistant") := by
  induction ts with
  | nil => intro i h; simp [turnMessages] at h
  | cons t ts ih =>
    intro i h
    match i with
    | 0 => rfl
    | 1 => rfl
    | (n+2) =>
      have hlen : (turnMessages (t :: ts)).length = (turnMessages ts).length + 2 := rfl
      have h2 : n < (turnMessages ts).length := by omega
      have hmod : (n + 2) % 2 = n % 2 := by omega
      have hget : (turnMessages (t :: ts)).get? (n + 2) = (turnMessages ts).get? n := rfl
      rw [hget, hmod]
      exact ih n h2

theorem intercalate_go_sep (l : List String) :
    ∀ acc : String, String.intercalate.go acc "\n\n" l = acc ++ sepConcat l := by
  induction l with
  | nil => intro acc; simp [String.intercalate.go, sepConcat]
  | cons a as ih =>
    intro acc
    have hstep : String.intercalate.go acc "\n\n" (a :: as)
        = String.intercalate.go (acc ++ "\n\n" ++ a) "\n\n" as := rfl
    rw [hstep, ih]
    simp [sepConcat, String.append_assoc]

theorem exportSpecText_cons (rest : List Message) :
    ∀ m : Message,
      exportSpecText (m :: rest) = fmtMessage m ++ sepConcat (rest.map fmtMessage) := by
  induction rest with
  | nil => intro m; simp [exportSpecText, sepConcat]
  | cons n rest2 ih =>
    intro m
    rw [show exportSpecText (m :: n :: rest2)
          = fmtMessage m ++ "\n\n" ++ exportSpecText (n :: rest2) from rfl]
    rw [ih n]
    simp only [List.map_cons, sepConcat]
    simp [String.append_assoc]

theorem exportText_eq_spec (l : List Message) :
    exportText l = exportSpecText l := by
  cases l with
  | nil => rfl
  | cons m rest =>
    have h1 : exportText (m :: rest)
        = String.intercalate.go (fmtMessage m) "\n\n" (rest.map fmtMessage) := rfl
    rw [h1, intercalate_go_sep, exportSpecText_cons rest m]

theorem lastN_length_le (n : Nat) (l : List α) : (lastN n l).length ≤ n := by
  simp only [lastN, List.length_drop]
  omega

theorem lastN_suffix (n : Nat) (l : List α) : lastN n l <:+ l :=
  List.drop_suffix _ _

/-! ## Claim theorems -/

/-- C1, counterexample: the claim says a failed completion call leaves the
retained history unchanged, with no assistant entry committed.  On the code,
a submission from an empty history whose call fails before any fragment
still commits both the user message and an empty assistant message: the
history afterwards has length 2, not the pre-turn length 0. -/
theorem C1_counterexample :
    (submitTurn { character := "친근한_멘토", messages := [] }
        "hi" [] (some "APIConnectionError — boom")).1.messages
      = [{ role := "user", content := "hi" },
         { role := "assistant", content := "" }] ∧
    (submitTurn { character := "친근한_멘토", messages := [] }
        "hi" [] (some "APIConnectionError — boom")).1.messages.length
      ≠ ({ character := "친근한_멘토", messages := [] } : SessionState).messages.length := by
  constructor
  · rfl
  · decide

/-- C1, amended: when the completion call fails at any point, the error is
only rendered in the transient placeholder, but the turn is still committed:
the user message and an assistant message holding the partial accumulator
(possibly the empty string) are both appended, so the retained history grows
by exactly two entries rather than staying unchanged. -/
theorem C1_failed_turn_commits (st : SessionState) (p e : String) (d : List Chunk) :
    (submitTurn st p d (some e)).1.messages
        = st.messages ++ [{ role := "user", content := p },
                          { role := "assistant", content := accumulate d }] ∧
    (submitTurn st p d (some e)).1.messages.length = st.messages.length + 2 ∧
    (submitTurn st p d (some e)).2 = "오류: " ++ e := by
  refine ⟨submitTurn_messages st p d (some e), ?_, rfl⟩
  rw [submitTurn_messages]
  simp

/-- C10: every user submission appends exactly two entries to the retained
history — first a user message with the submitted text, then exactly one
assistant message — regardless of whether the completion call succeeds or
fails; the history length grows by 2, the final entry has role assistant
(on failure its content is the partial accumulator, possibly empty), and a
run of completed turns from an empty history has even length. -/
theorem C10_turn_appends_two (st : SessionState) (p : String) (d : List Chunk)
    (e : Option String) (c : String)
    (ts : List (String × List Chunk × Option String)) :
    (submitTurn st p d e).1.messages
        = st.messages ++ [{ role := "user", content := p },
                          { role := "assistant", content := accumulate d }] ∧
    (submitTurn st p d e).1.messages.length = st.messages.length + 2 ∧
    (submitTurn st p d e).1.messages.getLast?
        = some { role := "assistant", content := accumulate d } ∧
    Even ((runTurns { character := c, messages := [] } ts).messages.length) := by
  refine ⟨submitTurn_messages st p d e, ?_, ?_, ?_⟩
  · rw [submitTurn_messages]; simp
  · rw [submitTurn_messages]
    have h2 : st.messages ++ [{ role := "user", content := p },
          { role := "assistant", content := accumulate d }]
        = (st.messages ++ [{ role := "user", content := p }])
            ++ [{ role := "assistant", content := accumulate d }] := by simp
    rw [h2, List.getLast?_concat]
  · rw [runTurns_messages ts]
    have h3 : ({ character := c, messages := [] } : SessionState).messages
        ++ turnMessages ts = turnMessages ts := rfl
    rw [h3, turnMessages_length]
    exact ⟨ts.length, by omega⟩

/-- C2: on every submission the message list passed to the completion call
is exactly one synthesized system entry holding the active persona
instruction, followed by the at most 20 most recent retained entries (the
window is taken after the user message is appended); the list never exceeds
21 entries, the window is a suffix of the retained history, the system
entry is the only system-role entry, and the retained history itself is
extended in full, never truncated, by the turn. -/
theorem C2_sent_window (st : SessionState) (p sp : String)
    (h : promptFor st.character = some sp) (hns : noSystem st.messages) :
    sentForTurn st p
        = some ({ role := "system", content := sp }
            :: lastN N (st.messages ++ [{ role := "user", content := p }])) ∧
    (lastN N (st.messages ++ [{ role := "user", content := p }])).length ≤ N ∧
    ({ role := "system", content := sp }
        :: lastN N (st.messages ++ [{ role := "user", content := p }])).length ≤ N + 1 ∧
    lastN N (st.messages ++ [{ role := "user", content := p }])
        <:+ st.messages ++ [{ role := "user", content := p }] ∧
    ({ role := "system", content := sp }
        :: lastN N (st.messages ++ [{ role := "user", content := p }])).countP
          (fun m => m.role == "system") = 1 ∧
    ∀ (d : List Chunk) (e : Option String),
      (submitTurn st p d e).1.messages
        = (st.messages ++ [{ role := "user", content := p }])
            ++ [{ role := "assistant", content := accumulate d }] := by
  refine ⟨?_, lastN_length_le N _, ?_, lastN_suffix N _, ?_, ?_⟩
  · simp [sentForTurn, h, sentMessages]
  · have := lastN_length_le N (st.messages ++ [{ role := "user", content := p }])
    simp only [List.length_cons]
    omega
  · rw [List.countP_cons]
    have hzero : (lastN N (st.messages ++ [{ role := "user", content := p }])).countP
        (fun m => m.role == "system") = 0 := by
      rw [List.countP_eq_zero]
      intro m hm
      simp only [lastN] at hm
      have hmem : m ∈ st.messages ++ [{ role := "user", content := p }] :=
        List.mem_of_mem_drop hm
      rcases List.mem_append.mp hmem with h1 | h2
      · simp only [beq_iff_eq]
        exact hns m h1
      · have h3 := List.mem_singleton.mp h2
        subst h3
        simp
    rw [hzero]
    simp
  · intro d e
    rw [submitTurn_messages]
    simp

/-- C2 witness: with persona `친근한_멘토` and empty history, submitting
"hi" sends exactly the system entry holding the mentor prompt followed by
the single user entry. -/
theorem C2_sent_window_witness :
    promptFor "친근한_멘토" = some mentorPrompt ∧
    noSystem ([] : List Message) ∧
    sentForTurn { character := "친근한_멘토", messages := [] } "hi"
      = some [{ role := "system", content := mentorPrompt },
              { role := "user", content := "hi" }] := by
  refine ⟨by decide, fun m hm => absurd hm (List.not_mem_nil m), ?_⟩
  have h := (C2_sent_window { character := "친근한_멘토", messages := [] }
      "hi" mentorPrompt (by decide) (fun m hm => absurd hm (List.not_mem_nil m))).1
  rw [h]
  rfl

/-- C3: starting from an empty history, after any sequence of k user
submissions whose completion calls all succeed (no persona switch or reset
in between), the retained history has length 2k and roles alternate: every
even 0-based index holds a user message and every odd index an assistant
message. -/
theorem C3_success_run_shape (c : String) (ts : List (String × List Chunk)) :
    (runTurns { character := c, messages := [] } (successTurns ts)).messages.length
        = 2 * ts.length ∧
    ∀ i, i < (runTurns { character := c, messages := [] } (successTurns ts)).messages.length →
      ((runTurns { character := c, messages := [] } (successTurns ts)).messages.get? i).map
          Message.role
        = some (if i % 2 = 0 then "user" else "assistant") := by
  have hm : (runTurns { character := c, messages := [] } (successTurns ts)).messages
      = turnMessages (successTurns ts) := by
    rw [runTurns_messages (successTurns ts)]
    rfl
  constructor
  · rw [hm, turnMessages_length]
    simp [successTurns]
  · intro i hi
    rw [hm] at hi ⊢
    exact turnMessages_roles (successTurns ts) i hi

/-- C4: the retained history never contains a system-role entry.  Every
operation of the script — a submission (successful or failed), a persona
switch, and the reset — preserves the invariant that all retained entries
have role user or assistant; the persona instruction only ever appears in
the call-time list built by `sentMessages`. -/
theorem C4_no_system_invariant (st : SessionState) (p sel e : String) (d : List Chunk)
    (hns : noSystem st.messages) :
    noSystem (submitTurn st p d (some e)).1.messages ∧
    noSystem (submitTurn st p d none).1.messages ∧
    noSystem (personaSwitch st sel).messages ∧
    noSystem (resetSession sel).messages := by
  have key : ∀ e2 : Option String, noSystem (submitTurn st p d e2).1.messages := by
    intro e2 m hm
    rw [submitTurn_messages] at hm
    rcases List.mem_append.mp hm with h1 | h2
    · exact hns m h1
    · rcases List.mem_cons.mp h2 with h3 | h4
      · subst h3
        exact (by decide : ("user" : String) ≠ "system")
      · have h5 := List.mem_singleton.mp h4
        subst h5
        exact (by decide : ("assistant" : String) ≠ "system")
  refine ⟨key (some e), key none, ?_, ?_⟩
  · unfold personaSwitch
    split
    · intro m hm
      exact absurd hm (List.not_mem_nil m)
    · exact hns
  · intro m hm
    exact absurd hm (List.not_mem_nil m)

/-- C4 witness: the invariant holds on a concrete system-free history and
is preserved by a failed submission and a persona switch. -/
theorem C4_no_system_invariant_witness :
    noSystem sampleState.messages ∧
    noSystem (submitTurn sampleState "hi" [] (some "boom")).1.messages ∧
    noSystem (personaSwitch sampleState "차분한_사서").messages := by
  refine ⟨by decide, ?_, ?_⟩
  · exact (C4_no_system_invariant sampleState "hi" "차분한_사서" "boom" [] (by decide)).1
  · exact (C4_no_system_invariant sampleState "hi" "차분한_사서" "boom" [] (by decide)).2.2.1

/-- C5: switching the active persona to a different persona clears the
entire retained history unconditionally — immediately after the switch the
history is empty and the new persona is active — and the next submission
sends only the new persona instruction text as the system entry, followed
by the new user entry alone. -/
theorem C5_persona_switch_clears (st : SessionState) (sel p : String)
    (h : st.character ≠ sel) :
    (personaSwitch st sel).messages = [] ∧
    (personaSwitch st sel).character = sel ∧
    sentForTurn (personaSwitch st sel) p
      = (promptFor sel).map
          (fun sp => [{ role := "system", content := sp },
                      { role := "user", content := p }]) := by
  have hps : personaSwitch st sel = { character := sel, messages := [] } := by
    simp [personaSwitch, h]
  refine ⟨by rw [hps], by rw [hps], ?_⟩
  rw [hps]
  show (promptFor sel).map
      (fun sp => sentMessages sp ([] ++ [{ role := "user", content := p }])) = _
  cases promptFor sel with
  | none => rfl
  | some sp => rfl

/-- C5 witness: switching from `친근한_멘토` to `차분한_사서` with prior
history empties the history, and the next submission is sent with the
librarian instruction only. -/
theorem C5_persona_switch_clears_witness :
    sampleState2.character ≠ "차분한_사서" ∧
    (personaSwitch sampleState2 "차분한_사서").messages = [] ∧
    sentForTurn (personaSwitch sampleState2 "차분한_사서") "hi"
      = some [{ role := "system", content := librarianPrompt },
              { role := "user", content := "hi" }] := by
  refine ⟨by decide, ?_, ?_⟩
  · exact (C5_persona_switch_clears sampleState2 "차분한_사서" "hi" (by decide)).1
  · have h := (C5_persona_switch_clears sampleState2 "차분한_사서" "hi" (by decide)).2.2
    rw [h]
    rfl

/-- C6: for every non-empty retained history, the export step leaves the
session state unchanged and offers a payload computed from the full
retained history (not the truncated window): the `"\n\n"`-join of one
`**role**: content` entry per retained message, which coincides with the
spec-side rendering `exportSpecText` (one formatted entry per message,
blank-line separated, in original order). -/
theorem C6_export_full_history (st : SessionState) (h : st.messages ≠ []) :
    (exportStep st).1 = st ∧
    (exportStep st).2 = some (exportText st.messages) ∧
    exportText st.messages = exportSpecText st.messages := by
  have hie : st.messages.isEmpty = false := by
    cases hm : st.messages with
    | nil => exact absurd hm h
    | cons a l => rfl
  refine ⟨?_, ?_, exportText_eq_spec st.messages⟩
  · simp [exportStep, hie]
  · simp [exportStep, hie]

/-- C6 witness: exporting a concrete two-message history leaves the state
unchanged and yields the two formatted entries separated by a blank line. -/
theorem C6_export_full_history_witness :
    sampleState2.messages ≠ [] ∧
    (exportStep sampleState2).1 = sampleState2 ∧
    (exportStep sampleState2).2 = some "**user**: hi\n\n**assistant**: ok" := by
  refine ⟨by decide, (C6_export_full_history sampleState2 (by decide)).1, ?_⟩
  have h := (C6_export_full_history sampleState2 (by decide)).2.1
  rw [h]
  rfl

/-- C7: for every successful completion call, the assistant message
appended to history has content equal to the concatenation, in delivery
order, of the streamed fragment texts (fragments without text contribute
nothing), and after each prefix of the stream the accumulator equals the
concatenation of the fragments received so far. -/
theorem C7_stream_concat (st : SessionState) (p : String) (delivered : List Chunk) :
    accumulate delivered = concatTexts (delivered.filterMap chunkText) ∧
    (∀ k : Nat, accumulate (delivered.take k)
        = concatTexts ((delivered.take k).filterMap chunkText)) ∧
    (submitTurn st p delivered none).1.messages.getLast?
      = some { role := "assistant",
               content := concatTexts (delivered.filterMap chunkText) } := by
  refine ⟨accumulate_eq delivered, fun k => accumulate_eq (delivered.take k), ?_⟩
  have h2 : st.messages ++ [{ role := "user", content := p },
        { role := "assistant", content := accumulate delivered }]
      = (st.messages ++ [{ role := "user", content := p }])
          ++ [{ role := "assistant", content := accumulate delivered }] := by simp
  rw [submitTurn_messages, h2, List.getLast?_concat, accumulate_eq]

/-- C8: when the API credential is absent from the process environment the
startup gate reports the descriptive error message and halts before any
session operation; when a non-empty credential is present, startup
proceeds. -/
theorem C8_startup_gate (env : String → Option String) :
    (env "OPENAI_API_KEY" = none → startup env = StartupResult.halt apiKeyErrorMsg) ∧
    (∀ v : String, env "OPENAI_API_KEY" = some v → v ≠ "" →
        startup env = StartupResult.proceed) ∧
    apiKeyErrorMsg ≠ "" := by
  refine ⟨?_, ?_, by decide⟩
  · intro h
    simp [startup, h]
  · intro v hv hne
    simp [startup, hv, hne]

/-- C8 witness: with no environment at all the gate halts with the message;
with a non-empty key it proceeds. -/
theorem C8_startup_gate_witness :
    startup (fun _ => none) = StartupResult.halt apiKeyErrorMsg ∧
    startup (fun _ => some "sk-test") = StartupResult.proceed :=
  ⟨(C8_startup_gate (fun _ => none)).1 rfl,
   (C8_startup_gate (fun _ => some "sk-test")).2.1 "sk-test" rfl (by decide)⟩

/-- C9: the export step is never offered when the retained history is
empty: in any state with an empty history the guard at src/app.py line 135
yields no download payload, and the state is untouched. -/
theorem C9_no_export_when_empty (st : SessionState) (h : st.messages = []) :
    (exportStep st).2 = none ∧ (exportStep st).1 = st := by
  simp [exportStep, h]

/-- C9 witness: the concrete empty-history session offers no export. -/
theorem C9_no_export_when_empty_witness :
    emptyState.messages = [] ∧ (exportStep emptyState).2 = none :=
  ⟨rfl, (C9_no_export_when_empty emptyState rfl).1⟩
